import Mathlib

/-!
Verification of the craigslist-scraper pipeline.

This file gives a shallow embedding of the scraper's core logic:

* `evaluate`        — GeminiEvaluator.evaluate (evaluator.py), including the
  markdown-fence stripping and JSON parsing of the model response;
* `get_listing_urls` — the three-strategy selector chain (craigslist.py);
* `scrapeListings` / `scrape_search_results` — the per-listing fetch loop with
  its inter-request delay and per-listing error isolation (craigslist.py);
* `evalPassGo`      — the evaluation pass over a product's listing batch with
  its fixed 2-second rate limit (scraper.py, scrape_product);
* `runAll`          — the per-product driver loop of `main` (scraper.py);
* `summarize`       — the aggregation performed by print_results (scraper.py)
  together with the match collection of notifier.py.

Network fetches and the Gemini call are modelled as oracles (values of
`Except String _`): the embedding quantifies over every possible outcome of
the external world.  Python dictionaries produced by `json.loads` are
modelled by the `Json` inductive; Python truthiness tests that the source
performs on optional strings and on JSON values are modelled explicitly by
`pyTruthyStr` and `jsonTruthy`.
-/

/-- Python truthiness of an optional string: `None` and `""` are falsy.
Models expressions such as `if not title`, `if listing.get("error")`,
`if href:` in the source. -/
def pyTruthyStr : Option String → Bool
  | none => false
  | some s => s != ""

/-- JSON values as produced by `json.loads`.  Objects keep their members in
textual order; lookups take the last binding of a key, matching the
overwrite behaviour of Python dict construction.  Numbers are modelled as
integers (no claim depends on fractional numbers). -/
inductive Json where
  | null : Json
  | bool (b : Bool) : Json
  | num (n : Int) : Json
  | str (s : String) : Json
  | arr (xs : List Json) : Json
  | obj (fields : List (String × Json)) : Json

/-- Python truthiness of a JSON value: `None`, `False`, `0`, `""`, `[]`,
and the empty object are falsy. -/
def jsonTruthy : Json → Bool
  | .null => false
  | .bool b => b
  | .num n => n != 0
  | .str s => s != ""
  | .arr [] => false
  | .arr (_ :: _) => true
  | .obj [] => false
  | .obj (_ :: _) => true

/-- Truthiness of the result of a Python `.get` on a dict: a missing key
gives `None`, which is falsy. -/
def optJsonTruthy : Option Json → Bool
  | none => false
  | some j => jsonTruthy j

/-- Lookup of a key in a JSON object's member list; the last binding wins,
matching Python dict semantics when `json.loads` sees duplicate keys. -/
def lookupField : List (String × Json) → String → Option Json
  | [], _ => none
  | (k', v) :: rest, k =>
    match lookupField rest k with
    | some v2 => some v2
    | none => if k' = k then some v else none

/-- Member access `j.get k` for a parsed JSON value; `none` when `j` is not
an object (Python would raise an AttributeError there — the aggregation
theorems only apply to well-formed Evaluation objects, where this cannot
happen). -/
def jsonGet : Json → String → Option Json
  | .obj fs, k => lookupField fs k
  | _, _ => none

/-- The backtick character, written by code point to keep source text plain. -/
def backtick : Char := Char.ofNat 96

/-- Python `str.strip()` on a character list: drop whitespace at both ends. -/
def pyStrip (cs : List Char) : List Char :=
  ((cs.dropWhile Char.isWhitespace).reverse.dropWhile Char.isWhitespace).reverse

/-- Whether the character list starts with a triple-backtick fence,
modelling `response_text.startswith("...")` with the fence literal. -/
def isFenceAt (cs : List Char) : Bool :=
  decide (cs.take 3 = [backtick, backtick, backtick])

/-- Characters up to (excluding) the next triple-backtick fence, or the whole
list when no fence occurs.  When the input text starts with a fence, Python's
`text.split("...")[1]` is exactly `takeUntilFence` of the text after the
leading fence. -/
def takeUntilFence : List Char → List Char
  | [] => []
  | a :: rest => if isFenceAt (a :: rest) then [] else a :: takeUntilFence rest

/-- Whether the character list starts with the four characters `json`,
modelling `response_text.startswith("json")`. -/
def startsWithJsonTag : List Char → Bool
  | 'j' :: 's' :: 'o' :: 'n' :: _ => true
  | _ => false

/-- The markdown-fence post-processing of the evaluator response, modelling
evaluator.py lines 93-100: strip, and when the text starts with a fence take
the segment up to the closing fence, drop an optional `json` language tag,
and strip again. -/
def stripTag (t1 : List Char) : List Char :=
  if startsWithJsonTag t1 then t1.drop 4 else t1

/-- See the doc comment above: the composite post-processing applied to the
stripped response text. -/
def stripResponse (cs : List Char) : List Char :=
  if isFenceAt (pyStrip cs) then
    pyStrip (stripTag (takeUntilFence ((pyStrip cs).drop 3)))
  else pyStrip cs

/-- Skip JSON whitespace, as the `json` module does between tokens. -/
def skipWs (cs : List Char) : List Char := cs.dropWhile Char.isWhitespace

/-- Numeric value of a digit character. -/
def digitVal (c : Char) : Nat := c.toNat - 48

/-- Natural number denoted by a list of digit characters. -/
def natOfDigits (ds : List Char) : Nat :=
  ds.foldl (fun a c => a * 10 + digitVal c) 0

/-- Body of a JSON string literal: characters after the opening quote, up to
the closing quote, decoding the basic escapes.  Returns the decoded
characters and the remaining input. -/
def parseStrChars : List Char → Option (List Char × List Char)
  | [] => none
  | c :: rest =>
    if c = '"' then some ([], rest)
    else if c = '\\' then
      match rest with
      | [] => none
      | e :: rest2 =>
        let dec : Option Char :=
          if e = 'n' then some '\n'
          else if e = 't' then some '\t'
          else if e = 'r' then some '\r'
          else if e = '"' then some '"'
          else if e = '\\' then some '\\'
          else if e = '/' then some '/'
          else none
        match dec with
        | none => none
        | some d =>
          match parseStrChars rest2 with
          | none => none
          | some (s, r) => some (d :: s, r)
    else
      match parseStrChars rest with
      | none => none
      | some (s, r) => some (c :: s, r)

mutual

/-- Recursive-descent JSON value parsing with explicit fuel, modelling the
grammar accepted by `json.loads` on the subset the scraper can meet
(objects, arrays, strings, integers, `true`, `false`, `null`). -/
def parseVal : Nat → List Char → Option (Json × List Char)
  | 0, _ => none
  | fuel + 1, cs =>
    match skipWs cs with
    | [] => none
    | c :: rest =>
      if c = '\x7b' then
        match parseMembers fuel rest with
        | some (fs, r) => some (Json.obj fs, r)
        | none => none
      else if c = '[' then
        match parseElems fuel rest with
        | some (xs, r) => some (Json.arr xs, r)
        | none => none
      else if c = '"' then
        match parseStrChars rest with
        | some (s, r) => some (Json.str (String.mk s), r)
        | none => none
      else if c = 't' then
        match rest with
        | 'r' :: 'u' :: 'e' :: r => some (Json.bool true, r)
        | _ => none
      else if c = 'f' then
        match rest with
        | 'a' :: 'l' :: 's' :: 'e' :: r => some (Json.bool false, r)
        | _ => none
      else if c = 'n' then
        match rest with
        | 'u' :: 'l' :: 'l' :: r => some (Json.null, r)
        | _ => none
      else if c = '-' then
        let ds := rest.takeWhile Char.isDigit
        if ds = [] then none
        else some (Json.num (-(natOfDigits ds : Int)), rest.dropWhile Char.isDigit)
      else if c.isDigit then
        let ds := (c :: rest).takeWhile Char.isDigit
        some (Json.num (natOfDigits ds : Int), (c :: rest).dropWhile Char.isDigit)
      else none

/-- Members of a JSON object, after the opening brace: either an immediate
closing brace or a comma-separated list of string-keyed pairs. -/
def parseMembers : Nat → List Char → Option (List (String × Json) × List Char)
  | 0, _ => none
  | fuel + 1, cs =>
    match skipWs cs with
    | '\x7d' :: r => some ([], r)
    | '"' :: rest =>
      match parseStrChars rest with
      | none => none
      | some (kcs, r1) =>
        match skipWs r1 with
        | ':' :: r2 =>
          match parseVal fuel r2 with
          | none => none
          | some (v, r3) =>
            match skipWs r3 with
            | ',' :: r4 =>
              match parseMoreMembers fuel r4 with
              | none => none
              | some (fs, r5) => some ((String.mk kcs, v) :: fs, r5)
            | '\x7d' :: r4 => some ([(String.mk kcs, v)], r4)
            | _ => none
        | _ => none
    | _ => none

/-- Members of a JSON object after a comma: here a closing brace is a syntax
error (no trailing commas), otherwise as `parseMembers`. -/
def parseMoreMembers : Nat → List Char → Option (List (String × Json) × List Char)
  | 0, _ => none
  | fuel + 1, cs =>
    match skipWs cs with
    | '"' :: rest =>
      match parseStrChars rest with
      | none => none
      | some (kcs, r1) =>
        match skipWs r1 with
        | ':' :: r2 =>
          match parseVal fuel r2 with
          | none => none
          | some (v, r3) =>
            match skipWs r3 with
            | ',' :: r4 =>
              match parseMoreMembers fuel r4 with
              | none => none
              | some (fs, r5) => some ((String.mk kcs, v) :: fs, r5)
            | '\x7d' :: r4 => some ([(String.mk kcs, v)], r4)
            | _ => none
        | _ => none
    | _ => none

/-- Elements of a JSON array, after the opening bracket. -/
def parseElems : Nat → List Char → Option (List Json × List Char)
  | 0, _ => none
  | fuel + 1, cs =>
    match skipWs cs with
    | ']' :: r => some ([], r)
    | cs' =>
      match parseVal fuel cs' with
      | none => none
      | some (v, r1) =>
        match skipWs r1 with
        | ',' :: r2 =>
          match parseMoreElems fuel r2 with
          | none => none
          | some (xs, r3) => some (v :: xs, r3)
        | ']' :: r2 => some ([v], r2)
        | _ => none

/-- Elements of a JSON array after a comma (no trailing commas). -/
def parseMoreElems : Nat → List Char → Option (List Json × List Char)
  | 0, _ => none
  | fuel + 1, cs =>
    match parseVal fuel cs with
    | none => none
    | some (v, r1) =>
      match skipWs r1 with
      | ',' :: r2 =>
        match parseMoreElems fuel r2 with
        | none => none
        | some (xs, r3) => some (v :: xs, r3)
      | ']' :: r2 => some ([v], r2)
      | _ => none

end

/-- Python `json.loads`: parse one JSON value and require only whitespace to
remain, else fail (Python raises `json.JSONDecodeError`; failure is the
`none` case here). -/
def jsonLoads (cs : List Char) : Option Json :=
  match parseVal (2 * cs.length + 2) cs with
  | some (v, rest) => if skipWs rest = [] then some v else none
  | none => none

/-- One scraped listing record, as built by scrape_search_results and
enriched by scrape_product.  Successful listings carry the extracted
optional fields and no `error`; failed listings carry only `url` and
`error`.  `evaluation` holds the raw value produced by the evaluator. -/
structure Listing where
  url : String
  title : Option String
  description : Option String
  price : Option String
  error : Option String
  evaluation : Option Json

/-- Fields extracted from one listing page by get_listing_details
(craigslist.py); each is optional and already whitespace-trimmed. -/
structure ListingDetails where
  title : Option String
  description : Option String
  price : Option String
deriving DecidableEq

/-- The degraded verdict returned on any evaluator invocation failure or
unparsable response (evaluator.py lines 104-109). -/
def evalErrorJson (cause : String) : Json :=
  Json.obj [("is_match", Json.bool false), ("confidence", Json.str "low"),
            ("reason", Json.str ("Evaluation error: " ++ cause))]

/-- The short-circuit verdict for a listing with no textual content
(evaluator.py lines 73-78). -/
def noContentEval : Json :=
  Json.obj [("is_match", Json.bool false), ("confidence", Json.str "high"),
            ("reason", Json.str "No title or description available")]

/-- Modelled from the Python standard library: the message of the
`json.JSONDecodeError` raised by `json.loads` on the given text.  No claim
depends on its content, only on it being interpolated after the literal
text `Evaluation error: `. -/
def jsonDecodeMessage (t : List Char) : String :=
  "Expecting value: " ++ String.mk t

/-- GeminiEvaluator.evaluate (evaluator.py lines 57-109).  The Gemini call
`generate_content` is abstracted as the oracle `gen`: `.error e` models the
invocation raising an exception whose text is `e`, `.ok txt` models a
response whose `.text` is `txt`.  The second component counts how many
times the evaluator capability was invoked (0 or 1), so that theorems can
speak about the short-circuit.  The prompt construction has no influence on
the returned value and is absorbed into the oracle. -/
def evaluate (gen : Except String String) (l : Listing) : Json × Nat :=
  if !(pyTruthyStr l.title) && !(pyTruthyStr l.description) then
    (noContentEval, 0)
  else
    match gen with
    | .error e => (evalErrorJson e, 1)
    | .ok txt =>
      let t := stripResponse txt.toList
      match jsonLoads t with
      | some v => (v, 1)
      | none => (evalErrorJson (jsonDecodeMessage t), 1)

/-- Whether a JSON value has the shape of an Evaluation record of the data
model: an object with a boolean `is_match`, a `confidence` among
high/medium/low, and a textual `reason`. -/
def isEvaluationShaped (j : Json) : Bool :=
  match j with
  | .obj fs =>
    (match lookupField fs "is_match" with
     | some (.bool _) => true
     | _ => false)
    && (match lookupField fs "confidence" with
        | some (.str s) => s == "high" || s == "medium" || s == "low"
        | _ => false)
    && (match lookupField fs "reason" with
        | some (.str _) => true
        | _ => false)
  | _ => false

/-- A successfully fetched listing, as assembled by scrape_search_results
lines 142-147: the discovered url plus the extracted details. -/
def okListing (u : String) (d : ListingDetails) : Listing :=
  ⟨u, d.title, d.description, d.price, none, none⟩

/-- A failed listing, as assembled in the except branch of
scrape_search_results lines 152-160: all content fields unset and `error`
holding the exception's text. -/
def failedListing (u e : String) : Listing :=
  ⟨u, none, none, none, some e, none⟩

/-- The listing record produced for one discovered url under the fetch
oracle `f`. -/
def listingOf (f : String → Except String ListingDetails) (u : String) : Listing :=
  match f u with
  | .ok d => okListing u d
  | .error e => failedListing u e

/-- Observable actions of the per-listing fetch loop: a listing-page fetch,
or a politeness sleep of the configured delay. -/
inductive FetchEvent where
  | fetch (url : String) : FetchEvent
  | sleep (delay : Nat) : FetchEvent
deriving DecidableEq

/-- The per-listing loop of scrape_search_results (craigslist.py lines
135-162).  For each discovered url in order: fetch it; on success emit the
populated listing and, when more urls remain (`i < len(listing_urls)` in
the source), sleep for `delay`; on a fetch failure emit an error-tagged
listing and continue with no sleep (the sleep sits inside the `try` after
the successful append).  Returns the listings and the chronological trace
of fetch and sleep events. -/
def scrapeListings (f : String → Except String ListingDetails) (d : Nat) :
    List String → List Listing × List FetchEvent
  | [] => ([], [])
  | u :: rest =>
    let p := scrapeListings f d rest
    match f u with
    | .ok det =>
      (okListing u det :: p.1,
       FetchEvent.fetch u :: ((if rest.isEmpty then [] else [FetchEvent.sleep d]) ++ p.2))
    | .error e =>
      (failedListing u e :: p.1, FetchEvent.fetch u :: p.2)

/-- A parsed search results page, abstracted to the three element sets the
selector chain of get_listing_urls probes, in probe order: each anchor is
its optional `href` attribute. -/
structure SearchPage where
  postingTitleAnchors : List (Option String)
  staticResultAnchors : List (Option String)
  resultRowAnchors : List (Option String)
deriving DecidableEq

/-- Modelled from the Python standard library: `urljoin`.  Only the claims'
requirement that relative hrefs are resolved against the base matters; the
precise RFC 3986 merge is not exercised by any claim. -/
def urljoin (base href : String) : String :=
  if href.toList.take 4 = ['h', 't', 't', 'p'] then href else base ++ href

/-- The href-collection loop shared by all three strategies of
get_listing_urls: keep anchors whose `href` attribute is present and truthy,
resolved against the base url. -/
def extractHrefs (base : String) : List (Option String) → List String
  | [] => []
  | none :: rest => extractHrefs base rest
  | some h :: rest =>
    if h = "" then extractHrefs base rest
    else urljoin base h :: extractHrefs base rest

/-- get_listing_urls (craigslist.py lines 43-74): probe the three layout
selectors in fixed order and commit to the first one that matches at least
one element (`if listings:` in the source); collect hrefs from the matched
elements; when no selector matches, return the empty list. -/
def get_listing_urls (soup : SearchPage) (base : String) : List String :=
  if soup.postingTitleAnchors ≠ [] then extractHrefs base soup.postingTitleAnchors
  else if soup.staticResultAnchors ≠ [] then extractHrefs base soup.staticResultAnchors
  else if soup.resultRowAnchors ≠ [] then extractHrefs base soup.resultRowAnchors
  else []

/-- scrape_search_results (craigslist.py lines 111-162) with the two fetch
oracles made explicit: `searchFetch` is the outcome of fetching the search
results page (its failure propagates — the fetch is not inside any try),
and `f` is the outcome of each listing-page fetch. -/
def scrape_search_results (searchFetch : Except String SearchPage)
    (f : String → Except String ListingDetails) (d : Nat) (base : String) :
    Except String (List Listing × List FetchEvent) :=
  match searchFetch with
  | .error e => .error e
  | .ok soup => .ok (scrapeListings f d (get_listing_urls soup base))

/-- Observable actions of the evaluation pass: an evaluator call for the
listing at a given batch index, or the fixed rate-limit sleep. -/
inductive EvalEvent where
  | call (idx : Nat) : EvalEvent
  | sleep (secs : Nat) : EvalEvent
deriving DecidableEq

/-- The evaluation loop of scrape_product (scraper.py lines 54-71), with
`n` the length of the full batch and `i` the index of the first remaining
listing.  A listing whose `error` field is truthy is skipped outright
(`continue`); otherwise the evaluator is called, its verdict attached, and
when `i < n - 1` a fixed 2-second sleep follows.  The evaluator argument
abstracts `evaluator.evaluate(product_name, criteria, listing)`. -/
def evalPassGo (ev : Listing → Json) (n : Nat) :
    Nat → List Listing → List Listing × List EvalEvent
  | _, [] => ([], [])
  | i, l :: rest =>
    let p := evalPassGo ev n (i + 1) rest
    if pyTruthyStr l.error then (l :: p.1, p.2)
    else
      ({ l with evaluation := some (ev l) } :: p.1,
       EvalEvent.call i :: ((if i < n - 1 then [EvalEvent.sleep 2] else []) ++ p.2))

/-- The whole evaluation pass over a batch. -/
def evalPass (ev : Listing → Json) (ls : List Listing) : List Listing × List EvalEvent :=
  evalPassGo ev ls.length 0 ls

/-- One configured product (an entry of products.json). -/
structure ProductCfg where
  name : String
  search_term : String
deriving DecidableEq

/-- The per-product result dict returned by scrape_product. -/
structure ProductResult where
  product_name : String
  search_term : String
  listings : List Listing

/-- scrape_product (scraper.py lines 25-77): run the search pipeline, then,
when an evaluator is configured, the evaluation pass.  A failure of the
search-page fetch propagates (there is no handler in scrape_product). -/
def scrape_product (cfg : ProductCfg) (searchFetch : Except String SearchPage)
    (f : String → Except String ListingDetails) (ev : Option (Listing → Json))
    (d : Nat) (base : String) : Except String ProductResult :=
  match scrape_search_results searchFetch f d base with
  | .error e => .error e
  | .ok pr =>
    let ls2 := match ev with
      | none => pr.1
      | some e => (evalPass e pr.1).1
    .ok ⟨cfg.name, cfg.search_term, ls2⟩

/-- The product loop of main (scraper.py lines 176-179): scrape each
configured product in order and collect the results.  The loop body has no
exception handler, so the first failing scrape_product aborts the whole
run with that error and later products are never reached. -/
def runAll (searchO : ProductCfg → Except String SearchPage)
    (fO : ProductCfg → String → Except String ListingDetails)
    (ev : Option (Listing → Json)) (d : Nat) (base : String) :
    List ProductCfg → Except String (List ProductResult)
  | [] => .ok []
  | p :: rest =>
    match scrape_product p (searchO p) (fO p) ev d base with
    | .error e => .error e
    | .ok r =>
      match runAll searchO fO ev d base rest with
      | .error e => .error e
      | .ok rs => .ok (r :: rs)

/-- The match test of print_results (scraper.py line 93):
`l.get("evaluation", \x7b\x7d).get("is_match")` under Python truthiness. -/
def listingMatchesB (l : Listing) : Bool :=
  match l.evaluation with
  | none => false
  | some j => optJsonTruthy (jsonGet j "is_match")

/-- The run summary derived by print_results (totals) and consumed by
notifier.EmailNotifier.notify_matches (the product/listing match pairs). -/
structure RunSummary where
  total_listings : Nat
  total_matches : Nat
  matchList : List (String × Listing)

/-- The aggregation pass of print_results (scraper.py lines 87-101): one
left-to-right pass over the product results, accumulating the listing
count, the match count, and the `(product_name, listing)` pairs in listing
order within each product and product order across products. -/
def summarize (results : List ProductResult) : RunSummary :=
  results.foldl
    (fun acc r =>
      let ms := r.listings.filter listingMatchesB
      { total_listings := acc.total_listings + r.listings.length,
        total_matches := acc.total_matches + ms.length,
        matchList := acc.matchList ++ ms.map (fun l => (r.product_name, l)) })
    { total_listings := 0, total_matches := 0, matchList := [] }

/-- A fenced evaluator response with the `json` language tag: the opening
fence and tag, an arbitrary body, and the closing fence. -/
def fenceWrap (body : List Char) : List Char :=
  backtick :: backtick :: backtick :: 'j' :: 's' :: 'o' :: 'n' :: (body ++ [backtick, backtick, backtick])

/-- Modelled from the spec (claim C3's wording): the result of the first
strategy that yields at least one URL, strategies never combined; empty
when no strategy yields a URL. -/
def firstYieldingUrls (soup : SearchPage) (base : String) : List String :=
  let s1 := extractHrefs base soup.postingTitleAnchors
  let s2 := extractHrefs base soup.staticResultAnchors
  let s3 := extractHrefs base soup.resultRowAnchors
  if s1 ≠ [] then s1 else if s2 ≠ [] then s2 else if s3 ≠ [] then s3 else []

/-- Whether a fetch-loop event is a listing-page fetch. -/
def isFetchEv : FetchEvent → Bool
  | .fetch _ => true
  | .sleep _ => false

/-- Whether a fetch-loop event is a sleep. -/
def isSleepEv : FetchEvent → Bool
  | .sleep _ => true
  | .fetch _ => false

/-- Whether every pair of consecutive fetch events in the trace has at least
one sleep between them: since the trace alphabet is fetches and sleeps, this
is the absence of two adjacent fetch events. -/
def fetchPairsSeparated : List FetchEvent → Bool
  | [] => true
  | [_] => true
  | a :: b :: rest => !(isFetchEv a && isFetchEv b) && fetchPairsSeparated (b :: rest)

/-- Whether no sleep event occurs after the last fetch event of the trace. -/
def noSleepAfterLastFetch (tr : List FetchEvent) : Bool :=
  (tr.reverse.takeWhile (fun e => !(isFetchEv e))).all (fun e => !(isSleepEv e))

/-- Whether the fetch oracle succeeds on a url. -/
def fetchSucceeds (f : String → Except String ListingDetails) (u : String) : Bool :=
  match f u with
  | .ok _ => true
  | .error _ => false

/-- Modelled from the amended claim C7: the fetch-loop trace fetches each
url in discovery order and sleeps between consecutive fetches exactly when
the earlier fetch succeeded; nothing follows the last fetch. -/
def specFetchTrace (f : String → Except String ListingDetails) (d : Nat) :
    List String → List FetchEvent
  | [] => []
  | [u] => [FetchEvent.fetch u]
  | u :: v :: rest =>
    FetchEvent.fetch u ::
      ((if fetchSucceeds f u then [FetchEvent.sleep d] else []) ++ specFetchTrace f d (v :: rest))

/-- Whether an evaluation-pass event is an evaluator call. -/
def isCallEv : EvalEvent → Bool
  | .call _ => true
  | .sleep _ => false

/-- Whether an evaluation-pass event is a sleep. -/
def isEvalSleepEv : EvalEvent → Bool
  | .sleep _ => true
  | .call _ => false

/-- Whether every pair of consecutive evaluator calls has a sleep between
them (absence of two adjacent call events, the alphabet being calls and
sleeps). -/
def callsSeparated : List EvalEvent → Bool
  | [] => true
  | [_] => true
  | a :: b :: rest => !(isCallEv a && isCallEv b) && callsSeparated (b :: rest)

/-- Whether no sleep event occurs after the last evaluator call. -/
def noSleepAfterLastCall (tr : List EvalEvent) : Bool :=
  (tr.reverse.takeWhile (fun e => !(isCallEv e))).all (fun e => !(isEvalSleepEv e))

/-- The batch indices at which the trace performs evaluator calls, in
order. -/
def callIdxs : List EvalEvent → List Nat
  | [] => []
  | EvalEvent.call i :: rest => i :: callIdxs rest
  | EvalEvent.sleep _ :: rest => callIdxs rest

/-- Indices (counting from `i`) of the listings whose `error` field is not
truthy — the listings the evaluation pass must visit. -/
def nonErrorIdxsFrom : Nat → List Listing → List Nat
  | _, [] => []
  | i, l :: rest =>
    if pyTruthyStr l.error then nonErrorIdxsFrom (i + 1) rest
    else i :: nonErrorIdxsFrom (i + 1) rest

/-- The enrichment the evaluation pass applies to a single listing: skipped
when the error field is truthy, otherwise the evaluator verdict is
attached. -/
def attachEval (ev : Listing → Json) (l : Listing) : Listing :=
  if pyTruthyStr l.error then l else { l with evaluation := some (ev l) }

/-- Modelled from the spec (claim C9's wording): a listing counts as a match
when its evaluation is present with `is_match` equal to the boolean true. -/
def isMatchTrue (l : Listing) : Bool :=
  match l.evaluation with
  | some (Json.obj fs) =>
    match lookupField fs "is_match" with
    | some (Json.bool true) => true
    | _ => false
  | _ => false

/-- Whether a listing's evaluation field, when present, is an
Evaluation-shaped object of the data model. -/
def evalWellFormed (l : Listing) : Bool :=
  match l.evaluation with
  | none => true
  | some j => isEvaluationShaped j

/-- A listing with a title, used as concrete input for evaluator claims. -/
def sampleListing : Listing := ⟨"u1", some "Nikon FM2", none, none, none, none⟩

/-- The literal fenced response named by claim C6. -/
def fencedResponse : String :=
  "```json\n\x7b\"is_match\": true, \"confidence\": \"high\", \"reason\": \"exact model match\"\x7d\n```"

/-- The parsed verdict claim C6 expects for `fencedResponse`. -/
def fencedVerdict : Json :=
  Json.obj [("is_match", Json.bool true), ("confidence", Json.str "high"),
            ("reason", Json.str "exact model match")]

/-- First configured product of the two-product batch used to examine
claim C1. -/
def cfgA : ProductCfg := ⟨"camera-a", "nikon"⟩

/-- Second configured product of that batch. -/
def cfgB : ProductCfg := ⟨"camera-b", "leica"⟩

/-- Search-page oracle for the C1 batch: the search-results fetch raises a
network error for `cfgA` and succeeds (with an empty results page) for
`cfgB`. -/
def searchOracleC1 (p : ProductCfg) : Except String SearchPage :=
  if p.name = "camera-a" then .error "netE" else .ok ⟨[], [], []⟩

/-- Listing-page oracle for the C1 batch: every listing fetch succeeds. -/
def fetchOracleC1 (_ : ProductCfg) (_ : String) : Except String ListingDetails :=
  .ok ⟨some "T", some "D", some "P"⟩

/-- A search page whose first selector matches only an anchor without an
href while the third selector holds a usable link — the concrete input
separating claim C3 from the code. -/
def pageNoHref : SearchPage := ⟨[none], [], [some "http://x"]⟩

/-- A fetch oracle failing on url `a` with message `E` and succeeding
elsewhere. -/
def oracleFailA (u : String) : Except String ListingDetails :=
  if u = "a" then .error "E" else .ok ⟨some "T", none, none⟩

/-- A fetch oracle failing on url `a` with an empty message. -/
def oracleFailEmpty (u : String) : Except String ListingDetails :=
  if u = "a" then .error "" else .ok ⟨some "T", none, none⟩

/-- A trivial evaluator verdict used where only invocation matters. -/
def trivialVerdict : Listing → Json := fun _ => Json.obj []

/-- A two-listing batch whose first listing is evaluable and whose second
carries a fetch error — the concrete input separating claim C8 from the
code. -/
def batchOkErr : List Listing :=
  [⟨"u1", some "t", none, none, none, none⟩, ⟨"u2", none, none, none, some "E", none⟩]

theorem backtick_not_ws : Char.isWhitespace backtick = false := by decide

theorem isFenceAt_cons_ne (c : Char) (rest : List Char) (hc : c ≠ backtick) :
    isFenceAt (c :: rest) = false := by
  simp [isFenceAt, List.take_succ_cons, hc]

theorem pyStrip_of_ends (a b : Char) (mid : List Char)
    (ha : Char.isWhitespace a = false) (hb : Char.isWhitespace b = false) :
    pyStrip (a :: (mid ++ [b])) = a :: (mid ++ [b]) := by
  unfold pyStrip
  rw [List.dropWhile_cons, if_neg (by simp [ha])]
  rw [show (a :: (mid ++ [b])).reverse = b :: (mid.reverse ++ [a]) by simp]
  rw [List.dropWhile_cons, if_neg (by simp [hb])]
  simp

theorem pyStrip_fenceWrap (body : List Char) :
    pyStrip (fenceWrap body) = fenceWrap body := by
  have h : fenceWrap body =
      backtick :: ((backtick :: backtick :: 'j' :: 's' :: 'o' :: 'n' ::
        (body ++ [backtick, backtick])) ++ [backtick]) := by
    simp [fenceWrap]
  rw [h, pyStrip_of_ends _ _ _ backtick_not_ws backtick_not_ws]

theorem takeUntilFence_append (l r : List Char) (hl : ∀ c ∈ l, c ≠ backtick) :
    takeUntilFence (l ++ backtick :: backtick :: backtick :: r) = l := by
  induction l with
  | nil => simp [takeUntilFence, isFenceAt]
  | cons c l ih =>
    have hc : c ≠ backtick := hl c (by simp)
    rw [List.cons_append, takeUntilFence, isFenceAt_cons_ne c _ hc]
    simp only [Bool.false_eq_true, if_false]
    rw [ih (fun x hx => hl x (by simp [hx]))]

theorem stripResponse_fenceWrap (body : List Char) (hb : ∀ c ∈ body, c ≠ backtick) :
    stripResponse (fenceWrap body) = pyStrip body := by
  have hjson : ∀ c ∈ ('j' :: 's' :: 'o' :: 'n' :: body), c ≠ backtick := by
    intro c hc
    simp only [List.mem_cons] at hc
    rcases hc with h | h | h | h | h
    · rw [h]; decide
    · rw [h]; decide
    · rw [h]; decide
    · rw [h]; decide
    · exact hb c h
  have hf : isFenceAt (fenceWrap body) = true := by
    simp [isFenceAt, fenceWrap, List.take_succ_cons]
  have hdrop : (fenceWrap body).drop 3 =
      ('j' :: 's' :: 'o' :: 'n' :: body) ++ backtick :: backtick :: backtick :: [] := by
    simp [fenceWrap]
  unfold stripResponse
  rw [pyStrip_fenceWrap, hf, if_pos rfl, hdrop, takeUntilFence_append _ _ hjson]
  unfold stripTag
  rw [show startsWithJsonTag ('j' :: 's' :: 'o' :: 'n' :: body) = true from rfl, if_pos rfl]
  simp only [List.drop_succ_cons, List.drop_zero]

/-- C5: for every listing whose title and description are both absent,
evaluate returns exactly the high-confidence no-content verdict and the
evaluator capability is not invoked at all (invocation count 0), whatever
the evaluator oracle would have done. -/
theorem c5_short_circuit (gen : Except String String) (l : Listing)
    (ht : l.title = none) (hd : l.description = none) :
    evaluate gen l = (noContentEval, 0) ∧
    noContentEval = Json.obj [("is_match", Json.bool false), ("confidence", Json.str "high"),
      ("reason", Json.str "No title or description available")] := by
  refine ⟨?_, rfl⟩
  simp [evaluate, ht, hd, pyTruthyStr]

/-- Witness for c5_short_circuit: a contentless listing together with an
evaluator oracle that would raise if it were consulted. -/
theorem c5_witness :
    evaluate (.error "boom") ⟨"u", none, none, none, none, none⟩ = (noContentEval, 0) :=
  (c5_short_circuit (.error "boom") ⟨"u", none, none, none, none, none⟩ rfl rfl).1

/-- C4: when the listing has textual content (so the evaluator is
consulted), an invocation failure and an unparsable response both degrade
to the no-match verdict with low confidence and a reason opening with
`Evaluation error: `; the failure is returned as a value, never
re-raised. -/
theorem c4_eval_errors_degrade (gen : Except String String) (l : Listing)
    (hc : pyTruthyStr l.title = true ∨ pyTruthyStr l.description = true) :
    (∀ e, gen = .error e → evaluate gen l = (evalErrorJson e, 1)) ∧
    (∀ txt, gen = .ok txt → jsonLoads (stripResponse txt.toList) = none →
      evaluate gen l = (evalErrorJson (jsonDecodeMessage (stripResponse txt.toList)), 1)) ∧
    (∀ cause, evalErrorJson cause = Json.obj [("is_match", Json.bool false),
      ("confidence", Json.str "low"),
      ("reason", Json.str ("Evaluation error: " ++ cause))]) := by
  have hcond : (!(pyTruthyStr l.title) && !(pyTruthyStr l.description)) = false := by
    rcases hc with h | h <;> simp [h]
  refine ⟨?_, ?_, fun _ => rfl⟩
  · intro e he
    subst he
    simp [evaluate, hcond]
  · intro txt he hp
    subst he
    simp only [String.toList] at hp
    simp [evaluate, hcond, hp]

/-- Witness for c4_eval_errors_degrade: a raising evaluator oracle against a
titled listing. -/
theorem c4_witness :
    evaluate (.error "X") sampleListing = (evalErrorJson "X", 1) :=
  (c4_eval_errors_degrade (.error "X") sampleListing (Or.inl (by decide))).1 "X" rfl

/-- C6: a response wrapped in a backtick fence with the `json` language tag
is stripped before parsing — in general for every fence-free body, and in
particular the claim's literal response parses to the expected verdict. -/
theorem c6_fence_stripping :
    (∀ (l : Listing) (body : List Char), pyTruthyStr l.title = true →
      (∀ c ∈ body, c ≠ backtick) →
      evaluate (.ok (String.mk (fenceWrap body))) l =
        (match jsonLoads (pyStrip body) with
         | some v => (v, 1)
         | none => (evalErrorJson (jsonDecodeMessage (pyStrip body)), 1))) ∧
    evaluate (.ok fencedResponse) sampleListing = (fencedVerdict, 1) := by
  constructor
  · intro l body ht hb
    have hcond : (!(pyTruthyStr l.title) && !(pyTruthyStr l.description)) = false := by
      simp [ht]
    have hs : (String.mk (fenceWrap body)).toList = fenceWrap body := rfl
    simp only [evaluate, hcond, Bool.false_eq_true, if_false, hs,
      stripResponse_fenceWrap body hb]
  · rfl

/-- Witness for c6_fence_stripping's general part, at the concrete body
holding the single digit 7. -/
theorem c6_witness :
    evaluate (.ok (String.mk (fenceWrap "7".toList))) sampleListing = (Json.num 7, 1) :=
  ((c6_fence_stripping.1 sampleListing "7".toList (by decide) (by decide)).trans rfl)

/-- C10: when the (fence-stripped) response parses as JSON, evaluate
returns the parsed value as-is with no validation of its shape; in
particular a JSON array and an object without the expected keys come back
verbatim even though neither is Evaluation-shaped. -/
theorem c10_no_validation (l : Listing)
    (hc : pyTruthyStr l.title = true ∨ pyTruthyStr l.description = true) :
    (∀ txt v, jsonLoads (stripResponse txt.toList) = some v →
      evaluate (.ok txt) l = (v, 1)) ∧
    (evaluate (.ok "[]") l = (Json.arr [], 1) ∧ isEvaluationShaped (Json.arr []) = false) ∧
    (evaluate (.ok "\x7b\x7d") l = (Json.obj [], 1) ∧
      isEvaluationShaped (Json.obj []) = false) := by
  have hcond : (!(pyTruthyStr l.title) && !(pyTruthyStr l.description)) = false := by
    rcases hc with h | h <;> simp [h]
  refine ⟨?_, ⟨?_, rfl⟩, ⟨?_, rfl⟩⟩
  · intro txt v hv
    simp only [String.toList] at hv
    simp [evaluate, hcond, hv]
  · simp only [evaluate, hcond, Bool.false_eq_true, if_false]
    rfl
  · simp only [evaluate, hcond, Bool.false_eq_true, if_false]
    rfl

/-- Witness for c10_no_validation: the array response against a titled
listing. -/
theorem c10_witness :
    evaluate (.ok "[]") sampleListing = (Json.arr [], 1) ∧
    isEvaluationShaped (Json.arr []) = false :=
  (c10_no_validation sampleListing (Or.inl (by decide))).2.1

theorem scrapeListings_fst (f : String → Except String ListingDetails) (d : Nat)
    (us : List String) : (scrapeListings f d us).1 = us.map (listingOf f) := by
  induction us with
  | nil => rfl
  | cons u rest ih =>
    simp only [scrapeListings, List.map_cons]
    cases h : f u <;> simp [h, listingOf, ih]

theorem evalPassGo_fst (ev : Listing → Json) (n : Nat) (ls : List Listing) :
    ∀ i, (evalPassGo ev n i ls).1 = ls.map (attachEval ev) := by
  induction ls with
  | nil => intro i; rfl
  | cons l rest ih =>
    intro i
    simp only [evalPassGo, List.map_cons]
    cases h : pyTruthyStr l.error <;> simp [h, attachEval, ih]

/-- C2 as stated is violated by an empty failure message: the listing's
error field is set (to the empty string), yet the evaluation pass tests it
by truthiness, treats the listing as error-free, and attaches a verdict —
refuting the conjunct that no evaluation is ever attached to the failed
listing. -/
theorem c2_counterexample :
    (scrapeListings oracleFailEmpty 1 ["a"]).1 = [failedListing "a" ""] ∧
    (failedListing "a" "").error = some "" ∧
    (evalPass trivialVerdict [failedListing "a" ""]).1 =
      [⟨"a", none, none, none, some "", some (Json.obj [])⟩] ∧
    (⟨"a", none, none, none, some "", some (Json.obj [])⟩ : Listing).evaluation ≠ none := by
  refine ⟨rfl, rfl, rfl, ?_⟩
  simp

/-- C2 amended: a batch in which the fetch fails for exactly one url yields
one listing per url in discovery order; the failed one carries the failure
message with all content fields unset, the others are populated from their
fetched details with no error; and — provided the failure message is
non-empty, the code testing the field by truthiness — the evaluation pass
skips the failed listing, so no evaluation is ever attached to it. -/
theorem c2_amended (f : String → Except String ListingDetails) (d : Nat)
    (us₁ us₂ : List String) (u m : String)
    (h1 : ∀ v ∈ us₁, ∃ det, f v = .ok det) (hu : f u = .error m)
    (h2 : ∀ v ∈ us₂, ∃ det, f v = .ok det) (hm : m ≠ "") :
    (scrapeListings f d (us₁ ++ u :: us₂)).1 =
      us₁.map (listingOf f) ++ failedListing u m :: us₂.map (listingOf f) ∧
    (scrapeListings f d (us₁ ++ u :: us₂)).1.length = (us₁ ++ u :: us₂).length ∧
    failedListing u m = ⟨u, none, none, none, some m, none⟩ ∧
    (∀ v ∈ us₁ ++ us₂, ∃ det, f v = .ok det ∧ listingOf f v = okListing v det ∧
      (okListing v det).error = none ∧ (okListing v det).evaluation = none) ∧
    (∀ ev : Listing → Json,
      ((evalPass ev ((scrapeListings f d (us₁ ++ u :: us₂)).1)).1).get? us₁.length =
        some (failedListing u m)) := by
  have hfst : (scrapeListings f d (us₁ ++ u :: us₂)).1 =
      us₁.map (listingOf f) ++ failedListing u m :: us₂.map (listingOf f) := by
    rw [scrapeListings_fst, List.map_append, List.map_cons]
    simp [listingOf, hu]
  refine ⟨hfst, ?_, rfl, ?_, ?_⟩
  · rw [hfst]; simp
  · intro v hv
    rcases List.mem_append.mp hv with h | h
    · obtain ⟨det, hdet⟩ := h1 v h
      exact ⟨det, hdet, by simp [listingOf, hdet], rfl, rfl⟩
    · obtain ⟨det, hdet⟩ := h2 v h
      exact ⟨det, hdet, by simp [listingOf, hdet], rfl, rfl⟩
  · intro ev
    rw [hfst]
    unfold evalPass
    rw [evalPassGo_fst]
    rw [List.map_append, List.map_cons]
    rw [List.get?_append_right (by simp)]
    simp only [List.length_map, Nat.sub_self, List.get?_cons_zero]
    have : attachEval ev (failedListing u m) = failedListing u m := by
      simp [attachEval, failedListing, pyTruthyStr, hm]
    rw [this]

/-- Witness for c2_amended: a three-url batch whose middle fetch fails with
message `E`. -/
theorem c2_witness :
    (scrapeListings oracleFailA 1 ["b", "a", "c"]).1 =
      ["b"].map (listingOf oracleFailA) ++
        failedListing "a" "E" :: ["c"].map (listingOf oracleFailA) ∧
    (scrapeListings oracleFailA 1 ["b", "a", "c"]).1.length = (["b"] ++ "a" :: ["c"]).length ∧
    failedListing "a" "E" = ⟨"a", none, none, none, some "E", none⟩ ∧
    (∀ v ∈ ["b"] ++ ["c"], ∃ det, oracleFailA v = .ok det ∧
      listingOf oracleFailA v = okListing v det ∧
      (okListing v det).error = none ∧ (okListing v det).evaluation = none) ∧
    (∀ ev : Listing → Json,
      ((evalPass ev ((scrapeListings oracleFailA 1 (["b"] ++ "a" :: ["c"])).1)).1).get? 1 =
        some (failedListing "a" "E")) := by
  have h := c2_amended oracleFailA 1 ["b"] ["c"] "a" "E"
    (by intro v hv; simp at hv; subst hv; exact ⟨⟨some "T", none, none⟩, rfl⟩)
    rfl
    (by intro v hv; simp at hv; subst hv; exact ⟨⟨some "T", none, none⟩, rfl⟩)
    (by decide)
  exact h

/-- C7 as stated is violated when a non-final listing fetch fails: the
failure path skips the sleep (it sits inside the `try` after the
successful append), so the two fetches are adjacent in the trace with no
sleep between them. -/
theorem c7_counterexample :
    (scrapeListings oracleFailA 7 ["a", "b"]).2 =
      [FetchEvent.fetch "a", FetchEvent.fetch "b"] ∧
    fetchPairsSeparated [FetchEvent.fetch "a", FetchEvent.fetch "b"] = false := ⟨rfl, rfl⟩

theorem scrapeListings_trace_cons (f : String → Except String ListingDetails) (d : Nat)
    (u : String) (rest : List String) :
    (scrapeListings f d (u :: rest)).2 =
      match f u with
      | .ok _ => FetchEvent.fetch u ::
          ((if rest.isEmpty then [] else [FetchEvent.sleep d]) ++ (scrapeListings f d rest).2)
      | .error _ => FetchEvent.fetch u :: (scrapeListings f d rest).2 := by
  cases h : f u <;> simp [scrapeListings, h]

theorem scrapeListings_trace_eq (f : String → Except String ListingDetails) (d : Nat)
    (urls : List String) : (scrapeListings f d urls).2 = specFetchTrace f d urls := by
  induction urls with
  | nil => rfl
  | cons u rest ih =>
    rw [scrapeListings_trace_cons]
    cases rest with
    | nil => cases h : f u <;> simp [h, specFetchTrace, scrapeListings]
    | cons v rest2 => cases h : f u <;> simp [h, specFetchTrace, fetchSucceeds, ih]

theorem specFetchTrace_ends_with_fetch (f : String → Except String ListingDetails) (d : Nat)
    (urls : List String) (h : urls ≠ []) :
    ∃ pre w, specFetchTrace f d urls = pre ++ [FetchEvent.fetch w] := by
  induction urls with
  | nil => exact absurd rfl h
  | cons u rest ih =>
    cases rest with
    | nil => exact ⟨[], u, rfl⟩
    | cons v rest2 =>
      obtain ⟨pre, w, hw⟩ := ih (by simp)
      refine ⟨FetchEvent.fetch u ::
        ((if fetchSucceeds f u then [FetchEvent.sleep d] else []) ++ pre), w, ?_⟩
      simp only [specFetchTrace, hw]
      simp

theorem noSleep_of_ends_fetch (pre : List FetchEvent) (w : String) :
    noSleepAfterLastFetch (pre ++ [FetchEvent.fetch w]) = true := by
  unfold noSleepAfterLastFetch
  rw [List.reverse_append]
  simp [List.takeWhile, isFetchEv]

/-- C7 amended: the fetch loop's trace fetches each discovered url in
order and sleeps for the configured delay between consecutive fetches
exactly when the earlier fetch succeeded (a failed fetch is followed
immediately by the next fetch); no sleep ever occurs after the last
fetch. -/
theorem c7_amended (f : String → Except String ListingDetails) (d : Nat)
    (urls : List String) :
    (scrapeListings f d urls).2 = specFetchTrace f d urls ∧
    noSleepAfterLastFetch ((scrapeListings f d urls).2) = true := by
  refine ⟨scrapeListings_trace_eq f d urls, ?_⟩
  rw [scrapeListings_trace_eq f d urls]
  cases urls with
  | nil => rfl
  | cons u rest =>
    obtain ⟨pre, w, hw⟩ := specFetchTrace_ends_with_fetch f d (u :: rest) (by simp)
    rw [hw]
    exact noSleep_of_ends_fetch pre w

/-- C8 as stated is violated when the final listings of the batch are
error-skipped: the sleep guard `i < len(listings) - 1` fires for the last
evaluator call, so a sleep trails the last call. -/
theorem c8_counterexample :
    (evalPass trivialVerdict batchOkErr).2 = [EvalEvent.call 0, EvalEvent.sleep 2] ∧
    noSleepAfterLastCall [EvalEvent.call 0, EvalEvent.sleep 2] = false := ⟨rfl, rfl⟩

theorem callsSeparated_cons_sleep (s : Nat) (tr : List EvalEvent) :
    callsSeparated (EvalEvent.sleep s :: tr) = callsSeparated tr := by
  cases tr <;> simp [callsSeparated, isCallEv]

theorem evalPassGo_callIdxs (ev : Listing → Json) (n : Nat) (ls : List Listing) :
    ∀ i, callIdxs ((evalPassGo ev n i ls).2) = nonErrorIdxsFrom i ls := by
  induction ls with
  | nil => intro i; rfl
  | cons l rest ih =>
    intro i
    simp only [evalPassGo, nonErrorIdxsFrom]
    cases h : pyTruthyStr l.error
    · by_cases hi : i < n - 1 <;> simp [h, hi, callIdxs, ih]
    · simp [h, ih]

theorem evalPassGo_callsSeparated (ev : Listing → Json) (n : Nat) (ls : List Listing) :
    ∀ i, i + ls.length = n → callsSeparated ((evalPassGo ev n i ls).2) = true := by
  induction ls with
  | nil => intro i _; rfl
  | cons l rest ih =>
    intro i h
    have hlen : i + (rest.length + 1) = n := by simpa using h
    simp only [evalPassGo]
    cases he : pyTruthyStr l.error
    · by_cases hi : i < n - 1
      · have hrec := ih (i + 1) (by omega)
        simp [he, hi, callsSeparated, isCallEv, callsSeparated_cons_sleep, hrec]
      · have hrest : rest = [] := List.length_eq_zero.mp (by omega)
        subst hrest
        simp [he, hi, callsSeparated]
    · exact (by simp [he, ih (i + 1) (by omega)])

theorem evalPassGo_trace (ev : Listing → Json) (n : Nat) (ls : List Listing) :
    ∀ i, (evalPassGo ev n i ls).2 = (nonErrorIdxsFrom i ls).flatMap
      (fun j => EvalEvent.call j :: (if j < n - 1 then [EvalEvent.sleep 2] else [])) := by
  induction ls with
  | nil => intro i; rfl
  | cons l rest ih =>
    intro i
    simp only [evalPassGo, nonErrorIdxsFrom]
    cases h : pyTruthyStr l.error
    · by_cases hi : i < n - 1 <;> simp [h, hi, ih]
    · simp [h, ih]

/-- C8 amended: in the evaluation pass, evaluator calls happen exactly at
the listings whose error field is not truthy (error-tagged listings are
skipped); a 2-second sleep separates every pair of consecutive calls; and
the call at batch index `j` is followed by a sleep exactly when
`j < N - 1`, so a sleep can trail the final call when the listings after
it are all error-skipped (as the counterexample shows), while no sleep
trails it when the batch's last listing is evaluated. -/
theorem c8_amended (ev : Listing → Json) (ls : List Listing) :
    callIdxs ((evalPass ev ls).2) = nonErrorIdxsFrom 0 ls ∧
    callsSeparated ((evalPass ev ls).2) = true ∧
    (evalPass ev ls).2 = (nonErrorIdxsFrom 0 ls).flatMap
      (fun j => EvalEvent.call j :: (if j < ls.length - 1 then [EvalEvent.sleep 2] else [])) ∧
    (evalPass ev ls).1 = ls.map (attachEval ev) :=
  ⟨evalPassGo_callIdxs ev ls.length ls 0,
   evalPassGo_callsSeparated ev ls.length ls 0 (by simp),
   evalPassGo_trace ev ls.length ls 0,
   evalPassGo_fst ev ls.length ls 0⟩

/-- C3 as stated is violated when the first selector matches only an anchor
without an href: the code commits to the element match and returns no
urls, although the first strategy yielding at least one URL is the third
one. -/
theorem c3_counterexample :
    get_listing_urls pageNoHref "B" = [] ∧
    firstYieldingUrls pageNoHref "B" = ["http://x"] ∧
    get_listing_urls pageNoHref "B" ≠ firstYieldingUrls pageNoHref "B" := by
  refine ⟨rfl, rfl, ?_⟩
  decide

theorem extractHrefs_nil_iff (base : String) (l : List (Option String))
    (h : l.all pyTruthyStr = true) : extractHrefs base l = [] ↔ l = [] := by
  cases l with
  | nil => simp [extractHrefs]
  | cons a rest =>
    simp only [List.all_cons, Bool.and_eq_true] at h
    cases a with
    | none => simp [pyTruthyStr] at h
    | some s =>
      have hs : ¬ s = "" := by simpa [pyTruthyStr] using h.1
      simp [extractHrefs, hs]

/-- C3 amended: the selector chain commits to the first selector that
matches at least one element — even when none of the matched anchors
carries a usable href, in which case it returns the empty sequence
although a later strategy would have yielded urls; strategies are never
combined; with no matching selector the result is empty, not an error.
When every matched anchor carries a truthy href, the claim's reading
holds: the result equals that of the first strategy yielding at least one
URL. -/
theorem c3_amended (soup : SearchPage) (base : String) :
    (soup.postingTitleAnchors ≠ [] →
      get_listing_urls soup base = extractHrefs base soup.postingTitleAnchors) ∧
    (soup.postingTitleAnchors = [] → soup.staticResultAnchors ≠ [] →
      get_listing_urls soup base = extractHrefs base soup.staticResultAnchors) ∧
    (soup.postingTitleAnchors = [] → soup.staticResultAnchors = [] →
      soup.resultRowAnchors ≠ [] →
      get_listing_urls soup base = extractHrefs base soup.resultRowAnchors) ∧
    (soup.postingTitleAnchors = [] → soup.staticResultAnchors = [] →
      soup.resultRowAnchors = [] → get_listing_urls soup base = []) ∧
    (soup.postingTitleAnchors.all pyTruthyStr = true →
      soup.staticResultAnchors.all pyTruthyStr = true →
      soup.resultRowAnchors.all pyTruthyStr = true →
      get_listing_urls soup base = firstYieldingUrls soup base) := by
  refine ⟨?_, ?_, ?_, ?_, ?_⟩
  · intro h1; simp [get_listing_urls, h1]
  · intro h1 h2; simp [get_listing_urls, h1, h2]
  · intro h1 h2 h3; simp [get_listing_urls, h1, h2, h3]
  · intro h1 h2 h3; simp [get_listing_urls, h1, h2, h3]
  · intro ha hb hc
    have e1 := extractHrefs_nil_iff base soup.postingTitleAnchors ha
    have e2 := extractHrefs_nil_iff base soup.staticResultAnchors hb
    have e3 := extractHrefs_nil_iff base soup.resultRowAnchors hc
    unfold get_listing_urls firstYieldingUrls
    by_cases h1 : soup.postingTitleAnchors = []
    · by_cases h2 : soup.staticResultAnchors = []
      · by_cases h3 : soup.resultRowAnchors = []
        · simp [h1, h2, h3, extractHrefs]
        · simp [h1, h2, h3, e1, e2, e3, extractHrefs]
      · simp [h1, h2, e1, e2, extractHrefs]
    · simp [h1, e1]

/-- Witness for c3_amended: the second-selector case on a concrete gallery
page, and the claim-equivalence case on a concrete page whose anchors all
carry hrefs. -/
theorem c3_witness :
    get_listing_urls ⟨[], [some "y"], []⟩ "B" = extractHrefs "B" [some "y"] ∧
    get_listing_urls ⟨[some "p"], [], [some "r"]⟩ "B" =
      firstYieldingUrls ⟨[some "p"], [], [some "r"]⟩ "B" :=
  ⟨(c3_amended ⟨[], [some "y"], []⟩ "B").2.1 rfl (by decide),
   (c3_amended ⟨[some "p"], [], [some "r"]⟩ "B").2.2.2.2 (by decide) (by decide) (by decide)⟩

/-- C1 as stated is violated: with two configured products where the
first product's search-results fetch raises a network error, the whole
batch run aborts with that error; no result is produced for the second
product even though its own run would have succeeded. -/
theorem c1_counterexample :
    runAll searchOracleC1 fetchOracleC1 none 1 "B" [cfgA, cfgB] = .error "netE" ∧
    scrape_product cfgB (searchOracleC1 cfgB) (fetchOracleC1 cfgB) none 1 "B" =
      .ok ⟨"camera-b", "leica", []⟩ ∧
    ¬ ∃ rs, runAll searchOracleC1 fetchOracleC1 none 1 "B" [cfgA, cfgB] = .ok rs ∧
        ∃ r ∈ rs, r.product_name = "camera-b" := by
  refine ⟨rfl, rfl, ?_⟩
  rintro ⟨rs, hrs, -⟩
  rw [show runAll searchOracleC1 fetchOracleC1 none 1 "B" [cfgA, cfgB] =
    .error "netE" from rfl] at hrs
  exact Except.noConfusion hrs

/-- C1 amended: a network error on a product's search-results fetch
propagates out of the unprotected product loop of main: the whole batch
run yields that error, producing results for no product — the products
after the failing one are never processed. -/
theorem c1_search_error_aborts (searchO : ProductCfg → Except String SearchPage)
    (fO : ProductCfg → String → Except String ListingDetails)
    (ev : Option (Listing → Json)) (d : Nat) (base : String)
    (pre post : List ProductCfg) (p : ProductCfg) (e : String)
    (hpre : ∀ q ∈ pre, ∃ page, searchO q = .ok page)
    (hp : searchO p = .error e) :
    runAll searchO fO ev d base (pre ++ p :: post) = .error e := by
  induction pre with
  | nil =>
    simp only [List.nil_append, runAll, scrape_product, scrape_search_results, hp]
  | cons q pre2 ih =>
    obtain ⟨page, hq⟩ := hpre q (by simp)
    have ih2 := ih (fun r hr => hpre r (by simp [hr]))
    simp only [List.cons_append, runAll, scrape_product, scrape_search_results, hq,
      List.append_eq, ih2]

/-- Witness for c1_search_error_aborts: a three-product batch whose middle
product's search fetch raises. -/
theorem c1_witness :
    runAll (fun q => if q.name = "ok-one" then .ok ⟨[], [], []⟩ else .error "boom")
      fetchOracleC1 none 1 "B"
      ([⟨"ok-one", "s"⟩] ++ (⟨"bad", "s"⟩ : ProductCfg) :: [⟨"after", "s"⟩]) =
      .error "boom" :=
  c1_search_error_aborts _ _ none 1 "B" [⟨"ok-one", "s"⟩] [⟨"after", "s"⟩] ⟨"bad", "s"⟩ "boom"
    (by intro q hq; simp at hq; subst hq; exact ⟨⟨[], [], []⟩, rfl⟩) rfl

theorem listingMatchesB_eq_isMatchTrue (l : Listing) (h : evalWellFormed l = true) :
    listingMatchesB l = isMatchTrue l := by
  unfold listingMatchesB isMatchTrue
  unfold evalWellFormed at h
  cases hev : l.evaluation with
  | none => rfl
  | some j =>
    rw [hev] at h
    cases j with
    | null => simp [isEvaluationShaped] at h
    | bool b => simp [isEvaluationShaped] at h
    | num n => simp [isEvaluationShaped] at h
    | str s => simp [isEvaluationShaped] at h
    | arr xs => simp [isEvaluationShaped] at h
    | obj fs =>
      unfold isEvaluationShaped at h
      simp only [Bool.and_eq_true] at h
      cases hlk : lookupField fs "is_match" with
      | none => rw [hlk] at h; simp at h
      | some v =>
        cases v with
        | null => rw [hlk] at h; simp at h
        | num n => rw [hlk] at h; simp at h
        | str s => rw [hlk] at h; simp at h
        | arr xs => rw [hlk] at h; simp at h
        | obj fs2 => rw [hlk] at h; simp at h
        | bool b =>
          simp only [jsonGet, hlk, optJsonTruthy, jsonTruthy]
          cases b <;> rfl

theorem summarize_foldl_spec (results : List ProductResult)
    (h : ∀ r ∈ results, ∀ l ∈ r.listings, evalWellFormed l = true) :
    ∀ acc : RunSummary,
      results.foldl
        (fun acc r =>
          let ms := r.listings.filter listingMatchesB
          { total_listings := acc.total_listings + r.listings.length,
            total_matches := acc.total_matches + ms.length,
            matchList := acc.matchList ++ ms.map (fun l => (r.product_name, l)) }) acc =
      { total_listings := acc.total_listings + (results.map (fun r => r.listings.length)).sum,
        total_matches := acc.total_matches +
          ((results.flatMap (fun r => r.listings)).filter isMatchTrue).length,
        matchList := acc.matchList ++ results.flatMap
          (fun r => (r.listings.filter isMatchTrue).map (fun l => (r.product_name, l))) } := by
  induction results with
  | nil => intro acc; simp
  | cons r rest ih =>
    intro acc
    have hr : r.listings.filter listingMatchesB = r.listings.filter isMatchTrue :=
      List.filter_congr (fun l hl => listingMatchesB_eq_isMatchTrue l (h r (by simp) l hl))
    have hrest := ih (fun r2 hr2 => h r2 (by simp [hr2]))
    simp only [List.foldl_cons, hrest, hr]
    simp only [List.map_cons, List.sum_cons, List.flatMap_cons, List.filter_append,
      List.length_append, List.map_append, List.append_assoc]
    simp only [RunSummary.mk.injEq]
    refine ⟨by omega, by omega, trivial⟩

/-- C9: for every sequence of ProductResults whose attached evaluations are
Evaluation-shaped (as the data model prescribes), the aggregation is the
single pure pass the claim describes: total_listings sums the listing
counts, total_matches counts the listings whose evaluation's `is_match` is
true, the match pairs are collected in listing order within each product
and in product input order across products, and re-applying it to the same
input yields an identical summary. -/
theorem c9_summarize (results : List ProductResult)
    (h : ∀ r ∈ results, ∀ l ∈ r.listings, evalWellFormed l = true) :
    summarize results =
      { total_listings := (results.map (fun r => r.listings.length)).sum,
        total_matches := ((results.flatMap (fun r => r.listings)).filter isMatchTrue).length,
        matchList := results.flatMap
          (fun r => (r.listings.filter isMatchTrue).map (fun l => (r.product_name, l))) } ∧
    summarize results = summarize results := by
  refine ⟨?_, rfl⟩
  unfold summarize
  rw [summarize_foldl_spec results h { total_listings := 0, total_matches := 0, matchList := [] }]
  simp

/-- Witness for c9_summarize: a concrete batch of two products, the first
holding one matching and one unevaluated listing, the second empty. -/
theorem c9_witness :
    summarize [⟨"P", "s", [⟨"u", some "t", none, none, none,
        some (Json.obj [("is_match", Json.bool true), ("confidence", Json.str "high"),
          ("reason", Json.str "r")])⟩,
      ⟨"v", some "t2", none, none, none, none⟩]⟩, ⟨"Q", "s2", []⟩] =
      { total_listings := 2, total_matches := 1,
        matchList := [("P", ⟨"u", some "t", none, none, none,
          some (Json.obj [("is_match", Json.bool true), ("confidence", Json.str "high"),
            ("reason", Json.str "r")])⟩)] } := by
  have h := (c9_summarize [⟨"P", "s", [⟨"u", some "t", none, none, none,
        some (Json.obj [("is_match", Json.bool true), ("confidence", Json.str "high"),
          ("reason", Json.str "r")])⟩,
      ⟨"v", some "t2", none, none, none, none⟩]⟩, ⟨"Q", "s2", []⟩]
    (by
      intro r hr l hl
      simp only [List.mem_cons, List.not_mem_nil, or_false] at hr
      rcases hr with h1 | h2
      · subst h1
        simp only [List.mem_cons, List.not_mem_nil, or_false] at hl
        rcases hl with h3 | h4
        · subst h3; rfl
        · subst h4; rfl
      · subst h2
        simp at hl)).1
  exact h.trans rfl
